import Mathlib

/-!
Shallow embedding of the activity-log store of `melvor-activity-monitor`
(`StorageManager` in `src/storage.js`, `CompressionUtil` in
`src/compression.js`), together with theorems settling the specification
claims about grouping, eviction, the record optimizer and the media
reference codec.

Conventions of the embedding:
* JS numbers that the store manipulates (timestamps, counts, quantities)
  are modelled as `Int`; settings limits as `Nat`.
* An optional JS field (possibly `undefined`) is an `Option`.
* JS truthiness on a number is `≠ 0`, on a string `≠ ""`, on an optional
  value "present and truthy".
* Exceptions thrown by the live game-object registry are modelled with
  `Except Unit`; the `try`/`catch` of `reconstructMedia` is an explicit
  `match` on the `Except` value.
* External collaborators (the compression primitive's output size, the
  settings values, `Date.now()`, the game registry, the raw storage
  backends) are passed as explicit parameters.
-/

/-- JS string truthiness: a string is truthy iff it is nonempty. -/
def truthyS (s : String) : Prop := s ≠ ""

instance (s : String) : Decidable (truthyS s) := by
  unfold truthyS; infer_instance

/-- JS `s.startsWith(p)`, modelled on the character lists of the strings. -/
def jsStartsWith (s p : String) : Bool := p.data.isPrefixOf s.data

/-- Split a character list at the first occurrence of the (nonempty)
pattern `pat`: returns the part before the occurrence and the part after
it, or `none` when `pat` does not occur. -/
def breakOn (pat : List Char) : List Char → Option (List Char × List Char)
  | [] => none
  | c :: rest =>
    if pat.isPrefixOf (c :: rest) then
      some ([], (c :: rest).drop pat.length)
    else
      match breakOn pat rest with
      | some (pre, post) => some (c :: pre, post)
      | none => none

/-- JS `s.replace(pat, repl)` for a nonempty literal `pat`: replaces only
the first occurrence of `pat` in `s`, and returns `s` unchanged when `pat`
does not occur. -/
def replaceFirst (s pat repl : String) : String :=
  match breakOn pat.data s.data with
  | none => s
  | some (pre, post) => String.mk pre ++ repl ++ String.mk post

/-- Fuelled worker for `jsSplitOn` (structural recursion on `fuel` so the
kernel can evaluate it; `fuel = s.length + 1` never runs out for a
nonempty separator, since each found occurrence consumes at least one
character). -/
def jsSplitFuel (sep : List Char) : Nat → List Char → List (List Char)
  | 0, l => [l]
  | fuel + 1, l =>
    match breakOn sep l with
    | none => [l]
    | some (pre, post) => pre :: jsSplitFuel sep fuel post

/-- JS `s.split(sep)` for a nonempty literal separator. -/
def jsSplitOn (s sep : String) : List String :=
  (jsSplitFuel sep.data (s.data.length + 1) s.data).map String.mk

/-- The CDN host prefix that the fallback media encoding rewrites to the
short token `mainCDN:` (see `optimizeNotification` / `reconstructMedia`). -/
def cdnBase : String := "https://cdn2-main.melvor.net/assets/media/"

/-- In-memory event record (full form), as built by the capture layer and
mutated by `StorageManager`. -/
structure Notification where
  id : String
  timestamp : Int
  type : String
  message : String
  count : Option Int
  quantity : Option Int
  media : Option String
  mediaRef : Option String
  customID : Option String
  deriving Repr, DecidableEq

/-- Persisted record (minimal form) produced by `optimizeNotification`. -/
structure StoredNotification where
  id : String
  timestamp : Int
  type : String
  message : String
  count : Option Int
  quantity : Option Int
  mediaRef : Option String
  customID : Option String
  deriving Repr, DecidableEq

/-- Embedding of `StorageManager.optimizeNotification`: keeps
`id`/`timestamp`/`type`/`message`, keeps `count` and `quantity` only when
truthy and `> 1`, prefers a truthy `mediaRef`, otherwise derives a fallback
`"dl:"` reference from `media` with the CDN prefix rewritten, and keeps a
truthy `customID`. -/
def optimizeNotification (n : Notification) : StoredNotification :=
  { id := n.id
    timestamp := n.timestamp
    type := n.type
    message := n.message
    -- `if (notification.count && notification.count > 1)`
    count := match n.count with
      | some c => if c ≠ 0 ∧ 1 < c then some c else none
      | none => none
    -- `if (notification.quantity && notification.quantity > 1)`
    quantity := match n.quantity with
      | some q => if q ≠ 0 ∧ 1 < q then some q else none
      | none => none
    -- `if (notification.mediaRef) ... else if (notification.media) ...`
    mediaRef := match n.mediaRef with
      | some r =>
        if truthyS r then some r
        else match n.media with
          | some m => if truthyS m then
              some ("dl:" ++ replaceFirst m cdnBase "mainCDN:") else none
          | none => none
      | none => match n.media with
        | some m => if truthyS m then
            some ("dl:" ++ replaceFirst m cdnBase "mainCDN:") else none
        | none => none
    customID := match n.customID with
      | some c => if truthyS c then some c else none
      | none => none }

/-- Media-bearing game object of the live registry (`.media` may itself be
absent, matching the `?.media` accesses). -/
structure MObj where
  media : Option String

/-- Summoning mark object (`.markMedia`). -/
structure MarkObj where
  markMedia : Option String

/-- One entry of `game.skills.allObjects`: a skill whose `actions` registry
may be absent. A lookup may throw, modelled by `Except Unit`. -/
structure SkillObj where
  actions : Option (String → Except Unit (Option MObj))

/-- The live object registry (`game`), the external collaborator used by
`reconstructMedia`. Each lookup may throw (`Except.error`) or miss
(`Option.none`). -/
structure Game where
  items : String → Except Unit (Option MObj)
  skills : String → Except Unit (Option MObj)
  skillAllObjects : List SkillObj
  currencies : String → Except Unit (Option MObj)
  summoningMarks : Option (String → Except Unit (Option MarkObj))

/-- Embedding of the `case 'mastery'` loop of `reconstructMedia`: walk
`game.skills.allObjects`, and in each skill that has an `actions` registry
look the id up; return the first truthy `media` found, `""` if none, and
propagate a thrown lookup error. -/
def masteryLoop (id : String) : List SkillObj → Except Unit String
  | [] => Except.ok ""
  | s :: rest =>
    match s.actions with
    | none => masteryLoop id rest
    | some f =>
      match f id with
      | Except.error e => Except.error e
      | Except.ok none => masteryLoop id rest
      | Except.ok (some a) =>
        match a.media with
        | some m => if truthyS m then Except.ok m else masteryLoop id rest
        | none => masteryLoop id rest

/-- The `switch (type)` body of `reconstructMedia`: dispatch on the
reference kind against the live registry; an unresolvable lookup yields
`Except.ok ""` (the `|| ''` defaults), a thrown lookup error is an
`Except.error`, and an unknown kind yields `Except.ok ""` (the `default`
case, which logs a warning and returns `''`). -/
def mediaLookup (g : Game) (ty id : String) : Except Unit String :=
  if ty = "item" then
    match g.items id with
    | Except.error e => Except.error e
    | Except.ok (some o) => Except.ok (o.media.getD "")
    | Except.ok none => Except.ok ""
  else if ty = "skill" then
    match g.skills id with
    | Except.error e => Except.error e
    | Except.ok (some o) => Except.ok (o.media.getD "")
    | Except.ok none => Except.ok ""
  else if ty = "currency" then
    match g.currencies id with
    | Except.error e => Except.error e
    | Except.ok (some o) => Except.ok (o.media.getD "")
    | Except.ok none => Except.ok ""
  else if ty = "mastery" then masteryLoop id g.skillAllObjects
  else if ty = "mark" then
    match g.summoningMarks with
    | none => Except.ok ""
    | some f =>
      match f id with
      | Except.error e => Except.error e
      | Except.ok (some mk) => Except.ok (mk.markMedia.getD "")
      | Except.ok none => Except.ok ""
  else if ty = "static" then Except.ok ("assets/media/main/" ++ id)
  else Except.ok ""

/-- Embedding of `StorageManager.reconstructMedia`. Empty input returns
`""`; a `"dl:"` fallback reference is decoded by undoing the `mainCDN:`
token rewrite; otherwise the reference is split on the first `:` into a
kind and an id (the id rejoined over any further `:`), dispatched through
`mediaLookup` inside a `try`/`catch` that maps any thrown error to `""`. -/
def reconstructMedia (g : Game) (mediaRef : String) : String :=
  if mediaRef = "" then ""
  else if jsStartsWith mediaRef "dl:" then
    let urlPart := mediaRef.drop 3
    if jsStartsWith urlPart "mainCDN:" then
      replaceFirst urlPart "mainCDN:" cdnBase
    else urlPart
  else
    let parts := jsSplitOn mediaRef ":"
    let ty := parts.headD ""
    let id := String.intercalate ":" parts.tail
    match mediaLookup g ty id with
    | Except.ok s => s
    | Except.error _ => ""

/-- Embedding of `StorageManager.reconstructNotification`: restores
`count` and `quantity` with the `|| 1` defaults, recomputes `media` from a
truthy `mediaRef` via `reconstructMedia`, preserves `mediaRef` only when it
is not a `"dl:"` fallback, and restores a truthy `customID`. -/
def reconstructNotification (g : Game) (stored : StoredNotification) :
    Notification :=
  { id := stored.id
    timestamp := stored.timestamp
    type := stored.type
    message := stored.message
    -- `count: stored.count || 1`
    count := some (match stored.count with
      | some c => if c ≠ 0 then c else 1
      | none => 1)
    -- `quantity: stored.quantity || 1`
    quantity := some (match stored.quantity with
      | some q => if q ≠ 0 then q else 1
      | none => 1)
    media := match stored.mediaRef with
      | some r => if truthyS r then some (reconstructMedia g r) else none
      | none => none
    mediaRef := match stored.mediaRef with
      | some r =>
        if truthyS r ∧ ¬ jsStartsWith r "dl:" then some r else none
      | none => none
    customID := match stored.customID with
      | some c => if truthyS c then some c else none
      | none => none }

/-- Grouping configuration read from the settings collaborator at call
time (`groupSimilar`, `groupSimilarTimeWindow`, defaults `true` / 30 s). -/
structure GroupSettings where
  groupSimilar : Bool
  timeWindowSeconds : Int
  deriving Repr, DecidableEq

/-- Storage settings of the store (`mode`, `characterSaveType` and the
mode-specific limits). -/
structure StorageSettings where
  mode : String
  characterSaveType : String
  characterSavePercentage : Nat
  characterSaveLineCount : Nat
  localStorageLineCount : Nat
  deriving Repr, DecidableEq

/-- The hard byte ceiling of the character-save slot
(`MAX_CHARACTER_SAVE_BYTES`). -/
def MAX_CHARACTER_SAVE_BYTES : Nat := 8192

/-- Embedding of the grouping scan of `StorageManager.addNotification`:
walk the sequence newest-first, stop at the first record older than the
window (`now - n.timestamp > timeWindowMs` breaks the loop), and return the
first candidate with equal `type` whose content matches (the new event
carries a `quantity`, or the messages are equal). The result is the
scanned-over prefix, the matching record, and the remaining suffix. -/
def findGroupSplit (now windowMs : Int) (n : Notification) :
    List Notification →
    Option (List Notification × Notification × List Notification)
  | [] => none
  | x :: rest =>
    if now - x.timestamp > windowMs then none
    else if x.type = n.type ∧
        (n.quantity.isSome = true ∨ x.message = n.message) then
      some ([], x, rest)
    else
      match findGroupSplit now windowMs n rest with
      | some (pre, y, post) => some (x :: pre, y, post)
      | none => none

/-- The merge applied to the matching record on a grouped add: increment
`count` (absent or `0` treated as 1), set `timestamp` to now, and when the
new event carries `quantity` add it to the accumulated quantity (absent
treated as 0). -/
def mergeInto (existing n : Notification) (now : Int) : Notification :=
  { existing with
    count := some ((match existing.count with
      | some c => if c ≠ 0 then c else 1
      | none => 1) + 1)
    timestamp := now
    quantity := match n.quantity with
      | some q => some (existing.quantity.getD 0 + q)
      | none => existing.quantity }

/-- Embedding of `StorageManager.pruneToCount`: keep the newest `maxCount`
records in one step when the sequence exceeds the limit. -/
def pruneToCount (maxCount : Nat) (l : List Notification) :
    List Notification :=
  if l.length ≤ maxCount then l else l.take maxCount

/-- Embedding of the `while` loop of `StorageManager.pruneToPercentage`.
The loop guard re-reads the stale `currentSize` (a `const` that stays above
`maxBytes` whenever the loop is entered), so the loop runs until a
re-measurement — taken every 5 removals or when the sequence empties —
falls within budget, or the sequence is exhausted. `csize` is the
compression oracle (`CompressionUtil.compress(...).compressed.length`). -/
def pruneLoop (csize : List Notification → Nat) (maxBytes : Nat) :
    List Notification → Nat → List Notification
  | [], _ => []
  | x :: rest, pruneCount =>
    let m' := (x :: rest).dropLast
    let pc := pruneCount + 1
    if pc % 5 = 0 ∨ m' = [] then
      if csize m' ≤ maxBytes then m'
      else pruneLoop csize maxBytes m' pc
    else pruneLoop csize maxBytes m' pc
  termination_by l _ => l.length
  decreasing_by
    all_goals simp only [List.length_dropLast, List.length_cons]
    all_goals omega

/-- Embedding of `StorageManager.pruneToPercentage`: compute the byte
budget `floor(MAX_CHARACTER_SAVE_BYTES * percentage / 100)`, measure the
current sequence, and if it is over budget evict oldest records through
`pruneLoop`. -/
def pruneToPercentage (csize : List Notification → Nat)
    (percentage : Nat) (l : List Notification) : List Notification :=
  let maxBytes := MAX_CHARACTER_SAVE_BYTES * percentage / 100
  if csize l ≤ maxBytes then l
  else pruneLoop csize maxBytes l 0

/-- Embedding of `StorageManager.pruneIfNeeded`: dispatch on the storage
mode and, for `character-save`, on `characterSaveType`. -/
def pruneIfNeeded (csize : List Notification → Nat)
    (s : StorageSettings) (l : List Notification) : List Notification :=
  if s.mode = "character-save" then
    if s.characterSaveType = "percentage" then
      pruneToPercentage csize s.characterSavePercentage l
    else pruneToCount s.characterSaveLineCount l
  else if s.mode = "local-storage" then
    pruneToCount s.localStorageLineCount l
  else l

/-- Embedding of `StorageManager.addNotification` acting on the in-memory
sequence. `gs` is the grouping configuration read from the settings
collaborator, `csize` the compression oracle used by percentage pruning,
`now` is `Date.now()`. On a group match the matching record is merged,
removed from its position and put at the front, and no pruning runs; on no
match (or grouping disabled) the incoming record gets `count = 1`, is
prepended, and the sequence is pruned. -/
def addNotification (gs : GroupSettings)
    (csize : List Notification → Nat) (ss : StorageSettings)
    (l : List Notification) (now : Int) (n : Notification) :
    List Notification :=
  let windowMs := gs.timeWindowSeconds * 1000
  match (if gs.groupSimilar then findGroupSplit now windowMs n l
         else none) with
  | some (pre, x, post) => mergeInto x n now :: (pre ++ post)
  | none => pruneIfNeeded csize ss ({ n with count := some 1 } :: l)

/-- Embedding of `StorageManager.getNotifications`: a defensive copy of
the sequence (each record shallow-copied; in the pure embedding the copy
of a record is the record itself). -/
def getNotifications (l : List Notification) : List Notification :=
  l.map (fun n => n)

/-- Partial-field update object passed to `updateNotification`; a `some`
field is a key present in the JS `updates` object (for optional record
fields the inner `Option` is the value it is set to). -/
structure NotificationUpdate where
  id : Option String := none
  timestamp : Option Int := none
  type : Option String := none
  message : Option String := none
  count : Option (Option Int) := none
  quantity : Option (Option Int) := none
  media : Option (Option String) := none
  mediaRef : Option (Option String) := none
  customID : Option (Option String) := none
  deriving Repr, DecidableEq

/-- The JS spread `{ ...record, ...updates }`: fields present in the
update object override the record's fields. -/
def applyUpdate (n : Notification) (u : NotificationUpdate) :
    Notification :=
  { id := u.id.getD n.id
    timestamp := u.timestamp.getD n.timestamp
    type := u.type.getD n.type
    message := u.message.getD n.message
    count := u.count.getD n.count
    quantity := u.quantity.getD n.quantity
    media := u.media.getD n.media
    mediaRef := u.mediaRef.getD n.mediaRef
    customID := u.customID.getD n.customID }

/-- Embedding of `StorageManager.updateNotification`: find the first
record with the given id, replace it by the spread-merge with `updates`,
and schedule a debounced save; when no record matches, do nothing. The
returned `Bool` records whether `debouncedSave` was scheduled. -/
def updateNotification : List Notification → String →
    NotificationUpdate → List Notification × Bool
  | [], _, _ => ([], false)
  | x :: rest, id, u =>
    if x.id = id then (applyUpdate x u :: rest, true)
    else
      let r := updateNotification rest id u
      (x :: r.1, r.2)

/-- The JSON envelope written to a backend:
`{ data, uncompressedSize, version }`. -/
structure StorageData where
  data : String
  uncompressedSize : Nat
  version : Nat

/-- The compressed store passed to `CompressionUtil.decompress`. -/
structure CompressedStore where
  compressed : List Nat
  uncompressedSize : Nat
  version : Nat

/-- Host decoding primitives used on the load path, each fallible:
`JSON.parse` of the envelope, `atob`-based base64 decoding, and
`CompressionUtil.decompress`. A `none` result models a thrown error, which
the source catches. -/
structure DecodeEnv where
  parseJson : String → Option StorageData
  fromBase64 : String → Option (List Nat)
  decompress : CompressedStore → Option (List StoredNotification)

/-- Shared body of `loadFromLocalStorage` / `loadFromCharacterStorage`:
missing or empty raw data yields the empty sequence; any failure of
envelope parsing, base64 decoding or decompression is caught and yields
the empty sequence; on success every stored record is reconstructed. -/
def loadFromData (g : Game) (env : DecodeEnv) (data : Option String) :
    List Notification :=
  match data with
  | none => []
  | some d =>
    if d = "" then []
    else
      match env.parseJson d with
      | none => []
      | some sd =>
        match env.fromBase64 sd.data with
        | none => []
        | some bytes =>
          match env.decompress
              { compressed := bytes
                uncompressedSize := sd.uncompressedSize
                version := sd.version } with
          | none => []
          | some stored => stored.map (reconstructNotification g)

/-- Embedding of `StorageManager.loadFromLocalStorage` (`data` is
`localStorage.getItem(key)`, `none` when absent). -/
def loadFromLocalStorage (g : Game) (env : DecodeEnv)
    (data : Option String) : List Notification :=
  loadFromData g env data

/-- Embedding of `StorageManager.loadFromCharacterStorage` (`data` is
`ctx.characterStorage.getItem('notifications')`). -/
def loadFromCharacterStorage (g : Game) (env : DecodeEnv)
    (data : Option String) : List Notification :=
  loadFromData g env data

/-- Embedding of `StorageManager.load`: dispatch on the storage mode;
`memory-only` starts empty; an unknown mode leaves the sequence `cur`
untouched. Errors never escape: every fallible step below is already
caught, matching the outer `try`/`catch`. -/
def load (g : Game) (env : DecodeEnv) (mode : String)
    (cur : List Notification) (charData localData : Option String) :
    List Notification :=
  if mode = "character-save" then loadFromCharacterStorage g env charData
  else if mode = "local-storage" then loadFromLocalStorage g env localData
  else if mode = "memory-only" then []
  else cur

/-- JSON string literal for the escape-free ASCII strings used by the
concrete runs in this file (`JSON.stringify` of such a string). -/
def jsonStr (s : String) : String := "\"" ++ s ++ "\""

/-- One `"key":"value"` JSON member with a string value. -/
def jsonFieldS (k v : String) : String := jsonStr k ++ ":" ++ jsonStr v

/-- One `"key":value` JSON member with a numeric value. -/
def jsonFieldI (k : String) (v : Int) : String :=
  jsonStr k ++ ":" ++ toString v

/-- The JSON object layout of an in-memory record under `JSON.stringify`:
key insertion order is the capture-layer construction
(`id, timestamp, type, message, media, mediaRef, quantity, customID`)
followed by `count`, which `addNotification` assigns afterwards; absent
(`undefined`) fields are skipped. -/
def rawNotificationJson (n : Notification) : String :=
  "\x7b" ++ String.intercalate ","
    ([jsonFieldS "id" n.id, jsonFieldI "timestamp" n.timestamp,
      jsonFieldS "type" n.type, jsonFieldS "message" n.message]
     ++ (match n.media with | some m => [jsonFieldS "media" m] | none => [])
     ++ (match n.mediaRef with
         | some m => [jsonFieldS "mediaRef" m] | none => [])
     ++ (match n.quantity with
         | some q => [jsonFieldI "quantity" q] | none => [])
     ++ (match n.customID with
         | some c => [jsonFieldS "customID" c] | none => [])
     ++ (match n.count with
         | some c => [jsonFieldI "count" c] | none => [])) ++ "\x7d"

/-- The JSON object layout of a persisted record under `JSON.stringify`:
key insertion order is the construction order of `optimizeNotification`
(`id, timestamp, type, message, count, quantity, mediaRef, customID`). -/
def storedNotificationJson (s : StoredNotification) : String :=
  "\x7b" ++ String.intercalate ","
    ([jsonFieldS "id" s.id, jsonFieldI "timestamp" s.timestamp,
      jsonFieldS "type" s.type, jsonFieldS "message" s.message]
     ++ (match s.count with
         | some c => [jsonFieldI "count" c] | none => [])
     ++ (match s.quantity with
         | some q => [jsonFieldI "quantity" q] | none => [])
     ++ (match s.mediaRef with
         | some m => [jsonFieldS "mediaRef" m] | none => [])
     ++ (match s.customID with
         | some c => [jsonFieldS "customID" c] | none => [])) ++ "\x7d"

/-- Compression oracle realised by the documented fallback path of
`CompressionUtil.compress` (`CompressionStream` unavailable): the
"compressed" bytes are the UTF-8 encoding of `JSON.stringify` of the raw
in-memory sequence, so the measured size is its UTF-8 byte length. This is
the size `pruneToPercentage` sees, since it compresses
`this.notifications` directly. -/
def fallbackCompressedSize (l : List Notification) : Nat :=
  ("[" ++ String.intercalate "," (l.map rawNotificationJson) ++
    "]").utf8ByteSize

/-- Size of the persisted form of the sequence under the same fallback
compression path: `saveToCharacterStorage` compresses
`this.notifications.map(optimizeNotification)`. -/
def persistedCompressedSize (l : List Notification) : Nat :=
  ("[" ++ String.intercalate ","
    (l.map (fun n => storedNotificationJson (optimizeNotification n))) ++
    "]").utf8ByteSize

/-- A string prefixed onto another is detected by `jsStartsWith`. -/
lemma jsStartsWith_append (p s : String) : jsStartsWith (p ++ s) p = true := by
  unfold jsStartsWith
  rw [ List.isPrefixOf_iff_prefix, String.data_append]
  exact List.prefix_append _ _

/-- A string with a nonempty prefix is nonempty (truthy). -/
lemma truthyS_of_jsStartsWith {m p : String} (hp : p ≠ "")
    (h : jsStartsWith m p = true) : truthyS m := by
  unfold jsStartsWith at h
  rw [ List.isPrefixOf_iff_prefix] at h
  intro hm
  subst hm
  rcases h with ⟨t, ht⟩
  have hd : p.data = [] := by
    have : p.data ++ t = [] := ht
    exact (List.append_eq_nil.mp this).1
  exact hp (String.ext (by simp [hd]))

/-- Trivial live registry used by concrete runs: every lookup misses. -/
def g0 : Game :=
  { items := fun _ => Except.ok none
    skills := fun _ => Except.ok none
    skillAllObjects := []
    currencies := fun _ => Except.ok none
    summoningMarks := none }

/-- Record with omitted `count` and `quantity`, used to test the
round-trip defaults. -/
def c1Record : Notification :=
  { id := "a", timestamp := 0, type := "t", message := "m"
    count := none, quantity := none, media := none, mediaRef := none
    customID := none }

/-- C1 counterexample: the claim says reconstruction leaves `quantity`
absent when it was omitted, but `reconstructNotification` applies the
`stored.quantity || 1` default, so the round trip of a record with no
`quantity` yields `quantity = 1`, not an absent field. -/
theorem c1_quantity_default_counterexample :
    c1Record.quantity = none ∧
    (reconstructNotification g0 (optimizeNotification c1Record)).quantity =
      some 1 := by
  exact ⟨rfl, rfl⟩

/-- C1 amended: `reconstruct (optimize r)` preserves `id`, `timestamp`,
`type` and `message`; `count` and `quantity` are both normalised to 1
whenever they were omitted, zero, or not greater than 1 (so an omitted
`quantity` comes back as 1, not absent); a fallback `"dl:"` `mediaRef`
(and an empty one) is dropped while a genuine symbolic one is preserved;
`media` is recomputed from scratch from the persisted `mediaRef`; and an
empty `customID` is dropped. -/
theorem c1_roundtrip_amended (r : Notification) (g : Game) :
    (reconstructNotification g (optimizeNotification r)).id = r.id ∧
    (reconstructNotification g (optimizeNotification r)).timestamp =
      r.timestamp ∧
    (reconstructNotification g (optimizeNotification r)).type = r.type ∧
    (reconstructNotification g (optimizeNotification r)).message =
      r.message ∧
    (reconstructNotification g (optimizeNotification r)).count =
      some (match r.count with
        | some c => if c ≠ 0 ∧ 1 < c then c else 1
        | none => 1) ∧
    (reconstructNotification g (optimizeNotification r)).quantity =
      some (match r.quantity with
        | some q => if q ≠ 0 ∧ 1 < q then q else 1
        | none => 1) ∧
    (reconstructNotification g (optimizeNotification r)).mediaRef =
      (match r.mediaRef with
        | some m =>
          if truthyS m ∧ ¬ jsStartsWith m "dl:" then some m else none
        | none => none) ∧
    (reconstructNotification g (optimizeNotification r)).media =
      (match (optimizeNotification r).mediaRef with
        | some m => if truthyS m then some (reconstructMedia g m) else none
        | none => none) ∧
    (reconstructNotification g (optimizeNotification r)).customID =
      (match r.customID with
        | some c => if truthyS c then some c else none
        | none => none) := by
  obtain ⟨i, ts, ty, msg, cnt, qty, med, mref, cid⟩ := r
  refine ⟨rfl, rfl, rfl, rfl, ?_, ?_, ?_, rfl, ?_⟩
  · rcases cnt with _ | c
    · rfl
    · by_cases h : c ≠ 0 ∧ 1 < c
      · simp only [optimizeNotification, reconstructNotification, h,
          if_true, if_pos]
        simp [h.1]
      · simp [optimizeNotification, reconstructNotification, h]
  · rcases qty with _ | q
    · rfl
    · by_cases h : q ≠ 0 ∧ 1 < q
      · simp only [optimizeNotification, reconstructNotification, h,
          if_true, if_pos]
        simp [h.1]
      · simp [optimizeNotification, reconstructNotification, h]
  · rcases mref with _ | m
    · rcases med with _ | mm
      · rfl
      · by_cases hm : truthyS mm
        · simp [optimizeNotification, reconstructNotification, hm,
            jsStartsWith_append]
        · simp [optimizeNotification, reconstructNotification, hm]
    · by_cases hm : truthyS m
      · simp [optimizeNotification, reconstructNotification, hm]
      · rcases med with _ | mm
        · simp [optimizeNotification, reconstructNotification, hm]
        · by_cases hmm : truthyS mm
          · simp [optimizeNotification, reconstructNotification, hm, hmm,
              jsStartsWith_append]
          · simp [optimizeNotification, reconstructNotification, hm, hmm]
  · rcases cid with _ | c
    · rfl
    · by_cases hc : truthyS c
      · simp [optimizeNotification, reconstructNotification, hc]
      · simp [optimizeNotification, reconstructNotification, hc]

/-- Record carrying `quantity = 1`, used against the persisted-field
rule. -/
def c7Record : Notification :=
  { id := "q", timestamp := 5, type := "t", message := "m"
    count := some 1, quantity := some 1, media := none, mediaRef := none
    customID := none }

/-- C7 counterexample: the claim says the persisted form contains
`quantity` whenever it is present (any non-negative value), but
`optimizeNotification` keeps `quantity` only when it is `> 1`: a record
with `quantity = 1` is persisted without the field. -/
theorem c7_quantity_one_dropped_counterexample :
    c7Record.quantity = some 1 ∧
    (optimizeNotification c7Record).quantity = none := by
  exact ⟨rfl, rfl⟩

/-- C7 amended: the persisted form always contains `id`, `timestamp`,
`type` and `message`; it contains `count` only when `count > 1`, and —
symmetrically — `quantity` only when `quantity` is present and `> 1`
(a present `quantity` of 0 or 1 is dropped, to be restored as 1). -/
theorem c7_persisted_fields_amended (r : Notification) :
    (optimizeNotification r).id = r.id ∧
    (optimizeNotification r).timestamp = r.timestamp ∧
    (optimizeNotification r).type = r.type ∧
    (optimizeNotification r).message = r.message ∧
    (optimizeNotification r).count =
      (match r.count with
        | some c => if c ≠ 0 ∧ 1 < c then some c else none
        | none => none) ∧
    (optimizeNotification r).quantity =
      (match r.quantity with
        | some q => if q ≠ 0 ∧ 1 < q then some q else none
        | none => none) ∧
    (∀ q : Int, r.quantity = some q → 1 < q →
      (optimizeNotification r).quantity = some q) ∧
    (∀ q : Int, r.quantity = some q → q ≤ 1 →
      (optimizeNotification r).quantity = none) := by
  obtain ⟨i, ts, ty, msg, cnt, qty, med, mref, cid⟩ := r
  refine ⟨rfl, rfl, rfl, rfl, rfl, rfl, ?_, ?_⟩
  · intro q hq h1
    simp only at hq
    subst hq
    have : q ≠ 0 ∧ 1 < q := ⟨by omega, h1⟩
    simp [optimizeNotification, this]
  · intro q hq h1
    simp only at hq
    subst hq
    have : ¬(q ≠ 0 ∧ 1 < q) := by omega
    simp [optimizeNotification, this]

/-- Record carrying a fallback `"dl:"` `mediaRef`, as a stored record. -/
def c6Stored : StoredNotification :=
  { id := "f", timestamp := 0, type := "t", message := "m"
    count := none, quantity := none
    mediaRef := some "dl:mainCDN:x/y.png", customID := none }

/-- In-memory record still carrying the fallback `"dl:"` `mediaRef`. -/
def c6Record : Notification :=
  { id := "f", timestamp := 0, type := "t", message := "m"
    count := some 1, quantity := none
    media := some "https://cdn2-main.melvor.net/assets/media/x/y.png"
    mediaRef := some "dl:mainCDN:x/y.png", customID := none }

/-- C6 counterexample: the claim says re-optimizing a record carrying a
`"dl:"`-prefixed `mediaRef` attempts symbolic re-derivation instead of
re-persisting the same fallback string; but `optimizeNotification`
prefers any truthy `mediaRef` unconditionally, so it re-persists the
identical fallback string verbatim. -/
theorem c6_optimize_repersists_fallback_counterexample :
    c6Record.mediaRef = some "dl:mainCDN:x/y.png" ∧
    (optimizeNotification c6Record).mediaRef =
      some "dl:mainCDN:x/y.png" := by
  exact ⟨rfl, rfl⟩

/-- C6 amended: decoding `"dl:mainCDN:x/y.png"` yields the full CDN URL;
a loaded record never retains a `"dl:"` `mediaRef` (reconstruction
suppresses it), so re-optimizing a reconstructed record derives its
persisted `mediaRef` afresh from the recomputed `media` field rather than
copying the stored fallback string — but `optimizeNotification` applied to
an in-memory record that still carries a `"dl:"` `mediaRef` does
re-persist it verbatim (see the counterexample). -/
theorem c6_fallback_media_amended :
    (∀ g : Game, reconstructMedia g "dl:mainCDN:x/y.png" =
      "https://cdn2-main.melvor.net/assets/media/x/y.png") ∧
    (∀ (g : Game) (stored : StoredNotification) (m : String),
      stored.mediaRef = some m → jsStartsWith m "dl:" = true →
      (reconstructNotification g stored).mediaRef = none) ∧
    (∀ (g : Game) (stored : StoredNotification) (m : String),
      stored.mediaRef = some m → jsStartsWith m "dl:" = true →
      (optimizeNotification (reconstructNotification g stored)).mediaRef =
        (if truthyS (reconstructMedia g m) then
          some ("dl:" ++
            replaceFirst (reconstructMedia g m) cdnBase "mainCDN:")
        else none)) := by
  refine ⟨fun g => rfl, ?_, ?_⟩
  · intro g stored m hm hdl
    simp [reconstructNotification, hm, hdl]
  · intro g stored m hm hdl
    have htr : truthyS m := truthyS_of_jsStartsWith (by decide) hdl
    simp [reconstructNotification, optimizeNotification, hm, hdl, htr]

/-- Witness for the amended C6 theorem at the concrete fallback record. -/
theorem c6_fallback_media_amended_witness :
    reconstructMedia g0 "dl:mainCDN:x/y.png" =
      "https://cdn2-main.melvor.net/assets/media/x/y.png" ∧
    (reconstructNotification g0 c6Stored).mediaRef = none ∧
    (optimizeNotification (reconstructNotification g0 c6Stored)).mediaRef =
      (if truthyS (reconstructMedia g0 "dl:mainCDN:x/y.png") then
        some ("dl:" ++ replaceFirst
          (reconstructMedia g0 "dl:mainCDN:x/y.png") cdnBase "mainCDN:")
      else none) :=
  ⟨c6_fallback_media_amended.1 g0,
   c6_fallback_media_amended.2.1 g0 c6Stored "dl:mainCDN:x/y.png" rfl
     (by decide),
   c6_fallback_media_amended.2.2 g0 c6Stored "dl:mainCDN:x/y.png" rfl
     (by decide)⟩

/-- Record with `quantity = 2`, exercising the kept-quantity branch. -/
def c7Big : Notification :=
  { id := "q2", timestamp := 5, type := "t", message := "m"
    count := some 1, quantity := some 2, media := none, mediaRef := none
    customID := none }

/-- Witness for the amended C7 theorem: a quantity of 2 is kept, a
quantity of 1 is dropped. -/
theorem c7_persisted_fields_amended_witness :
    (optimizeNotification c7Big).quantity = some 2 ∧
    (optimizeNotification c7Record).quantity = none :=
  ⟨(c7_persisted_fields_amended c7Big).2.2.2.2.2.2.1 2 rfl (by norm_num),
   (c7_persisted_fields_amended c7Record).2.2.2.2.2.2.2 1 rfl
     (by norm_num)⟩

/-- Default grouping configuration (`groupSimilar = true`, 30 s window). -/
def gsDefault : GroupSettings :=
  { groupSimilar := true, timeWindowSeconds := 30 }

/-- Memory-only storage settings (no pruning on add). -/
def ssMem : StorageSettings :=
  { mode := "memory-only", characterSaveType := "percentage"
    characterSavePercentage := 100, characterSaveLineCount := 100
    localStorageLineCount := 100 }

/-- Degenerate compression oracle for runs whose mode never measures. -/
def czZero : List Notification → Nat := fun _ => 0

/-- Soundness of the grouping scan: when it returns a split
`(pre, x, post)`, the sequence is `pre ++ x :: post`, the match `x` is in
window and satisfies the matching rule, and every newer record in `pre` is
in window but fails the matching rule — so `x` is the newest qualifying
record. -/
lemma findGroupSplit_sound {now windowMs : Int} {n : Notification}
    {l pre post : List Notification} {x : Notification}
    (h : findGroupSplit now windowMs n l = some (pre, x, post)) :
    l = pre ++ x :: post ∧
    now - x.timestamp ≤ windowMs ∧
    (x.type = n.type ∧ (n.quantity.isSome = true ∨ x.message = n.message)) ∧
    (∀ y ∈ pre, now - y.timestamp ≤ windowMs ∧
      ¬(y.type = n.type ∧
        (n.quantity.isSome = true ∨ y.message = n.message))) := by
  induction l generalizing pre with
  | nil => simp [findGroupSplit] at h
  | cons a rest ih =>
    rw [findGroupSplit] at h
    by_cases hw : now - a.timestamp > windowMs
    · simp [hw] at h
    · rw [if_neg hw] at h
      by_cases hm : a.type = n.type ∧
          (n.quantity.isSome = true ∨ a.message = n.message)
      · rw [if_pos hm] at h
        simp only [Option.some.injEq, Prod.mk.injEq] at h
        obtain ⟨h1, h2, h3⟩ := h
        subst h1 h2 h3
        refine ⟨rfl, by omega, hm, ?_⟩
        intro y hy
        simp at hy
      · rw [if_neg hm] at h
        rcases hr : findGroupSplit now windowMs n rest with _ | ⟨pre1, y, post1⟩
        · rw [hr] at h; simp at h
        · rw [hr] at h
          simp only [Option.some.injEq, Prod.mk.injEq] at h
          obtain ⟨h1, h2, h3⟩ := h
          subst h2 h3
          obtain ⟨e1, e2, e3, e4⟩ := ih hr
          subst h1
          refine ⟨by rw [e1]; rfl, e2, e3, ?_⟩
          intro y hy
          rcases List.mem_cons.mp hy with hy | hy
          · subst hy
            exact ⟨by omega, hm⟩
          · exact e4 y hy

/-- First event of the grouping scenario: `{type:"AddGP", quantity:5}`. -/
def gpA : Notification :=
  { id := "a1", timestamp := 0, type := "AddGP", message := "+5 GP"
    count := none, quantity := some 5, media := none, mediaRef := none
    customID := none }

/-- Second event of the grouping scenario, 10 s later:
`{type:"AddGP", quantity:7}`. -/
def gpB : Notification :=
  { id := "a2", timestamp := 10000, type := "AddGP", message := "+7 GP"
    count := none, quantity := some 7, media := none, mediaRef := none
    customID := none }

/-- The first scenario event as stored after its add (`count = 1`). -/
def gpA1 : Notification := { gpA with count := some 1 }

/-- C2: with grouping enabled, an incoming event merges with the newest
in-window record of equal `type` whose content matches (incoming carries a
`quantity`, or the messages are equal): the matched record gets
`count + 1` (absent/zero count read as 1), `timestamp := now`, the
incoming `quantity` added onto the accumulated one (absent read as 0), and
moves to the front of the sequence; all newer records fail the match.
Concretely, adding `{type:"AddGP", quantity:5}` and, 10 s later with a
30 s window, `{type:"AddGP", quantity:7}` yields exactly one record with
`count = 2` and `quantity = 12`. -/
theorem c2_grouping_merge :
    (∀ (gs : GroupSettings) (csize : List Notification → Nat)
       (ss : StorageSettings) (l pre post : List Notification)
       (now : Int) (n x : Notification),
      gs.groupSimilar = true →
      findGroupSplit now (gs.timeWindowSeconds * 1000) n l =
        some (pre, x, post) →
      addNotification gs csize ss l now n =
        { x with
          count := some ((match x.count with
            | some c => if c ≠ 0 then c else 1
            | none => 1) + 1)
          timestamp := now
          quantity := match n.quantity with
            | some q => some (x.quantity.getD 0 + q)
            | none => x.quantity } :: (pre ++ post) ∧
      l = pre ++ x :: post ∧
      (x.type = n.type ∧
        (n.quantity.isSome = true ∨ x.message = n.message)) ∧
      now - x.timestamp ≤ gs.timeWindowSeconds * 1000 ∧
      (∀ y ∈ pre, ¬(y.type = n.type ∧
        (n.quantity.isSome = true ∨ y.message = n.message)))) ∧
    addNotification gsDefault czZero ssMem
        (addNotification gsDefault czZero ssMem [] 0 gpA) 10000 gpB =
      [{ id := "a1", timestamp := 10000, type := "AddGP"
         message := "+5 GP", count := some 2, quantity := some 12
         media := none, mediaRef := none, customID := none }] := by
  constructor
  · intro gs csize ss l pre post now n x hg hsplit
    obtain ⟨e1, e2, e3, e4⟩ := findGroupSplit_sound hsplit
    refine ⟨?_, e1, e3, e2, fun y hy => (e4 y hy).2⟩
    simp [addNotification, hg, hsplit, mergeInto]
  · decide

/-- Witness for C2 at the scenario's second add: the stored first event
merges with the incoming one. -/
theorem c2_grouping_merge_witness :
    addNotification gsDefault czZero ssMem [gpA1] 10000 gpB =
      { gpA1 with
        count := some ((match gpA1.count with
          | some c => if c ≠ 0 then c else 1
          | none => 1) + 1)
        timestamp := 10000
        quantity := match gpB.quantity with
          | some q => some (gpA1.quantity.getD 0 + q)
          | none => gpA1.quantity } :: ([] ++ []) :=
  (c2_grouping_merge.1 gsDefault czZero ssMem [gpA1] [] [] 10000 gpB gpA1
    rfl (by decide)).1

/-- Existing record for the window-boundary run. -/
def bA : Notification :=
  { id := "b1", timestamp := 0, type := "t", message := "m"
    count := some 1, quantity := some 1, media := none, mediaRef := none
    customID := none }

/-- Incoming same-type event for the window-boundary run. -/
def bB : Notification :=
  { id := "b2", timestamp := 30000, type := "t", message := "x"
    count := none, quantity := some 2, media := none, mediaRef := none
    customID := none }

/-- C3 counterexample: the claim says an event whose age difference is
greater than *or equal to* the window does not merge; but the scan only
stops on `now - timestamp > windowMs` (strictly greater), so an event
arriving exactly at the 30 s boundary still merges — the result has one
record, not a newly created second one. -/
theorem c3_boundary_merge_counterexample :
    (30000 : Int) - bA.timestamp = gsDefault.timeWindowSeconds * 1000 ∧
    addNotification gsDefault czZero ssMem [bA] 30000 bB =
      [{ bA with count := some 2, timestamp := 30000
                 quantity := some 3 }] ∧
    (addNotification gsDefault czZero ssMem [bA] 30000 bB).length = 1 := by
  refine ⟨rfl, by decide, by decide⟩

/-- C3 amended: the merge partner found by the scan is always within the
window inclusively (`now - timestamp ≤ windowMs`); when the newest record
is strictly out of window the scan stops at once and a new record is
created; and a newest same-type record with age `≤ windowMs` (boundary
included) that matches the content rule is merged with. -/
theorem c3_window_boundary_amended :
    (∀ (now windowMs : Int) (n x : Notification)
       (l pre post : List Notification),
      findGroupSplit now windowMs n l = some (pre, x, post) →
      now - x.timestamp ≤ windowMs) ∧
    (∀ (gs : GroupSettings) (csize : List Notification → Nat)
       (ss : StorageSettings) (rest : List Notification) (now : Int)
       (n x : Notification),
      gs.timeWindowSeconds * 1000 < now - x.timestamp →
      addNotification gs csize ss (x :: rest) now n =
        pruneIfNeeded csize ss ({ n with count := some 1 } :: x :: rest)) ∧
    (∀ (now windowMs : Int) (n x : Notification)
       (rest : List Notification),
      now - x.timestamp ≤ windowMs →
      x.type = n.type →
      (n.quantity.isSome = true ∨ x.message = n.message) →
      findGroupSplit now windowMs n (x :: rest) = some ([], x, rest)) := by
  refine ⟨?_, ?_, ?_⟩
  · intro now windowMs n x l pre post h
    exact (findGroupSplit_sound h).2.1
  · intro gs csize ss rest now n x hw
    rcases hgs : gs.groupSimilar with _ | _
    · simp [addNotification, hgs]
    · have hnone : findGroupSplit now (gs.timeWindowSeconds * 1000) n
          (x :: rest) = none := by
        rw [findGroupSplit, if_pos hw]
      simp [addNotification, hgs, hnone]
  · intro now windowMs n x rest hw hty hc
    rw [findGroupSplit, if_neg (by omega), if_pos ⟨hty, hc⟩]

/-- Witness for the amended C3 theorem at the boundary run: the found
merge partner is within the inclusive window; with the record strictly out
of window (10 s past the boundary) a new record is created; and at exactly
the boundary the newest matching record is found. -/
theorem c3_window_boundary_amended_witness :
    ((30000 : Int) - bA.timestamp ≤ 30000) ∧
    addNotification gsDefault czZero ssMem [bA] 40000 bB =
      pruneIfNeeded czZero ssMem ({ bB with count := some 1 } :: [bA]) ∧
    findGroupSplit 30000 30000 bB [bA] = some ([], bA, []) :=
  ⟨c3_window_boundary_amended.1 30000 30000 bB bA [bA] [] [] (by decide),
   c3_window_boundary_amended.2.1 gsDefault czZero ssMem [] 40000 bB bA
     (by decide),
   c3_window_boundary_amended.2.2 30000 30000 bB bA [] (by decide)
     (by decide) (Or.inl (by decide))⟩

/-- The truncation of `pruneToCount` always leaves at most `maxCount`
records. -/
lemma pruneToCount_length (L : Nat) (l : List Notification) :
    (pruneToCount L l).length ≤ L := by
  unfold pruneToCount
  split_ifs with h
  · exact h
  · simp

/-- Any `addNotification` call either merges (grouping found a match) or
takes the new-record path through `pruneIfNeeded`. -/
lemma addNotification_cases (gs : GroupSettings)
    (csize : List Notification → Nat) (ss : StorageSettings)
    (l : List Notification) (now : Int) (n : Notification) :
    (∃ pre x post,
      findGroupSplit now (gs.timeWindowSeconds * 1000) n l =
        some (pre, x, post) ∧
      addNotification gs csize ss l now n =
        mergeInto x n now :: (pre ++ post)) ∨
    addNotification gs csize ss l now n =
      pruneIfNeeded csize ss ({ n with count := some 1 } :: l) := by
  unfold addNotification
  rcases hgs : gs.groupSimilar with _ | _
  · right; rfl
  · rcases hsplit : findGroupSplit now (gs.timeWindowSeconds * 1000) n l
      with _ | ⟨pre, x, post⟩
    · right; simp [hsplit]
    · left; exact ⟨pre, x, post, rfl, by simp [hsplit]⟩

/-- A merge preserves the length of the sequence. -/
lemma addNotification_merge_length {gs : GroupSettings}
    {csize : List Notification → Nat} {ss : StorageSettings}
    {l pre post : List Notification} {now : Int} {n x : Notification}
    (hsplit : findGroupSplit now (gs.timeWindowSeconds * 1000) n l =
      some (pre, x, post))
    (heq : addNotification gs csize ss l now n =
      mergeInto x n now :: (pre ++ post)) :
    (addNotification gs csize ss l now n).length = l.length := by
  have e1 := (findGroupSplit_sound hsplit).1
  rw [heq, e1]
  simp
  omega

/-- Count-bounded local-storage settings with limit 3 for the scenario. -/
def ssLocal3 : StorageSettings :=
  { mode := "local-storage", characterSaveType := "count"
    characterSavePercentage := 100, characterSaveLineCount := 100
    localStorageLineCount := 3 }

/-- Scenario record A. -/
def recA : Notification :=
  { id := "A", timestamp := 0, type := "a", message := "ma"
    count := none, quantity := none, media := none, mediaRef := none
    customID := none }

/-- Scenario record B. -/
def recB : Notification :=
  { recA with id := "B", type := "b", message := "mb" }

/-- Scenario record C. -/
def recC : Notification :=
  { recA with id := "C", type := "c", message := "mc" }

/-- Scenario record D. -/
def recD : Notification :=
  { recA with id := "D", type := "d", message := "md" }

/-- C4: in the count-bounded modes with limit L, the sequence length (and
hence the length of `getNotifications()`) stays at most L across every
`addNotification` call, with eviction truncating to the newest L records
in one step; with L = 3, adding distinct A, B, C, D leaves
`getNotifications() = [D, C, B]`. -/
theorem c4_count_bound_exactness :
    (∀ (gs : GroupSettings) (csize : List Notification → Nat)
       (ss : StorageSettings) (l : List Notification) (now : Int)
       (n : Notification),
      ss.mode = "local-storage" →
      l.length ≤ ss.localStorageLineCount →
      (getNotifications (addNotification gs csize ss l now n)).length ≤
        ss.localStorageLineCount) ∧
    (∀ (gs : GroupSettings) (csize : List Notification → Nat)
       (ss : StorageSettings) (l : List Notification) (now : Int)
       (n : Notification),
      ss.mode = "character-save" → ss.characterSaveType ≠ "percentage" →
      l.length ≤ ss.characterSaveLineCount →
      (getNotifications (addNotification gs csize ss l now n)).length ≤
        ss.characterSaveLineCount) ∧
    (∀ (L : Nat) (l : List Notification),
      L < l.length → pruneToCount L l = l.take L) ∧
    getNotifications
        (addNotification gsDefault czZero ssLocal3
          (addNotification gsDefault czZero ssLocal3
            (addNotification gsDefault czZero ssLocal3
              (addNotification gsDefault czZero ssLocal3 [] 0 recA)
              0 recB) 0 recC) 0 recD) =
      [{ recD with count := some 1 }, { recC with count := some 1 },
       { recB with count := some 1 }] := by
  have hlen : ∀ l : List Notification, (getNotifications l).length =
      l.length := by
    intro l; simp [getNotifications]
  refine ⟨?_, ?_, ?_, by decide⟩
  · intro gs csize ss l now n hmode hl
    rw [hlen]
    rcases addNotification_cases gs csize ss l now n with
      ⟨pre, x, post, hsplit, heq⟩ | heq
    · rw [addNotification_merge_length hsplit heq]; exact hl
    · rw [heq]
      unfold pruneIfNeeded
      rw [if_neg (by rw [hmode]; decide), if_pos hmode]
      exact pruneToCount_length _ _
  · intro gs csize ss l now n hmode htype hl
    rw [hlen]
    rcases addNotification_cases gs csize ss l now n with
      ⟨pre, x, post, hsplit, heq⟩ | heq
    · rw [addNotification_merge_length hsplit heq]; exact hl
    · rw [heq]
      unfold pruneIfNeeded
      rw [if_pos hmode, if_neg htype]
      exact pruneToCount_length _ _
  · intro L l h
    unfold pruneToCount
    rw [if_neg (by omega)]

/-- Witness for C4: concrete count-bounded adds stay within their limits,
and a 4-element sequence is truncated to its newest 3 in one step. -/
theorem c4_count_bound_exactness_witness :
    (getNotifications
      (addNotification gsDefault czZero ssLocal3 [] 0 recA)).length ≤ 3 ∧
    (getNotifications
      (addNotification gsDefault czZero
        { ssLocal3 with mode := "character-save"
                        characterSaveLineCount := 2 } [] 0 recA)).length ≤
      2 ∧
    pruneToCount 3 [recD, recC, recB, recA] = [recD, recC, recB] :=
  ⟨c4_count_bound_exactness.1 gsDefault czZero ssLocal3 [] 0 recA rfl
     (by decide),
   c4_count_bound_exactness.2.1 gsDefault czZero
     { ssLocal3 with mode := "character-save"
                     characterSaveLineCount := 2 } [] 0 recA rfl
     (by decide) (by decide),
   by
     have := c4_count_bound_exactness.2.2.1 3 [recD, recC, recB, recA]
       (by decide)
     rw [this]
     rfl⟩

/-- C10: updating an unknown id is a no-op — the sequence is unchanged and
no debounced save is scheduled; updating a present id changes exactly the
first matching record (spread-merged with the updates), leaves every other
record unchanged, and schedules a save. -/
theorem c10_update_unknown_id_noop :
    (∀ (l : List Notification) (id : String) (u : NotificationUpdate),
      (∀ x ∈ l, x.id ≠ id) → updateNotification l id u = (l, false)) ∧
    (∀ (pre post : List Notification) (x : Notification) (id : String)
       (u : NotificationUpdate),
      (∀ y ∈ pre, y.id ≠ id) → x.id = id →
      updateNotification (pre ++ x :: post) id u =
        (pre ++ applyUpdate x u :: post, true)) := by
  constructor
  · intro l id u h
    induction l with
    | nil => rfl
    | cons a rest ih =>
      rw [updateNotification]
      rw [if_neg (h a (List.mem_cons_self a rest))]
      rw [ih (fun x hx => h x (List.mem_cons_of_mem a hx))]
  · intro pre post x id u hpre hx
    induction pre with
    | nil => simp [updateNotification, hx]
    | cons a rest ih =>
      rw [List.cons_append, updateNotification]
      rw [if_neg (hpre a (List.mem_cons_self a rest))]
      rw [ih (fun y hy => hpre y (List.mem_cons_of_mem a hy))]
      rfl

/-- Update object setting a new message. -/
def updMsg : NotificationUpdate := { message := some "edited" }

/-- Witness for C10: an update with an id absent from the sequence leaves
it untouched without scheduling a save; an update of the present id
rewrites exactly that record and schedules a save. -/
theorem c10_update_unknown_id_noop_witness :
    updateNotification [bA] "nope" updMsg = ([bA], false) ∧
    updateNotification [bA] "b1" updMsg =
      ([applyUpdate bA updMsg], true) :=
  ⟨c10_update_unknown_id_noop.1 [bA] "nope" updMsg
     (by intro x hx; simp at hx; subst hx; decide),
   c10_update_unknown_id_noop.2 [] [] bA "b1" updMsg
     (by intro y hy; simp at hy) rfl⟩

/-- C8: `load()` is total (it returns a sequence, never propagating an
error), and every failing stored payload — missing data, empty data,
malformed JSON envelope, bad base64, or failing decompression — leaves the
in-memory sequence empty, on both persistent backends and through the
`load` dispatcher. -/
theorem c8_load_failure_recovery :
    (∀ (g : Game) (env : DecodeEnv),
      loadFromLocalStorage g env none = [] ∧
      loadFromLocalStorage g env (some "") = [] ∧
      loadFromCharacterStorage g env none = [] ∧
      loadFromCharacterStorage g env (some "") = []) ∧
    (∀ (g : Game) (env : DecodeEnv) (d : String),
      env.parseJson d = none →
      loadFromLocalStorage g env (some d) = [] ∧
      loadFromCharacterStorage g env (some d) = []) ∧
    (∀ (g : Game) (env : DecodeEnv) (d : String) (sd : StorageData),
      env.parseJson d = some sd → env.fromBase64 sd.data = none →
      loadFromLocalStorage g env (some d) = [] ∧
      loadFromCharacterStorage g env (some d) = []) ∧
    (∀ (g : Game) (env : DecodeEnv) (d : String) (sd : StorageData)
       (bytes : List Nat),
      env.parseJson d = some sd → env.fromBase64 sd.data = some bytes →
      env.decompress
        { compressed := bytes, uncompressedSize := sd.uncompressedSize
          version := sd.version } = none →
      loadFromLocalStorage g env (some d) = [] ∧
      loadFromCharacterStorage g env (some d) = []) ∧
    (∀ (g : Game) (env : DecodeEnv) (cur : List Notification)
       (charData localData : Option String),
      load g env "local-storage" cur charData localData =
        loadFromLocalStorage g env localData ∧
      load g env "character-save" cur charData localData =
        loadFromCharacterStorage g env charData ∧
      load g env "memory-only" cur charData localData = []) := by
  refine ⟨?_, ?_, ?_, ?_, ?_⟩
  · intro g env
    exact ⟨rfl, rfl, rfl, rfl⟩
  · intro g env d hp
    by_cases hd : d = ""
    · subst hd; exact ⟨rfl, rfl⟩
    · constructor <;>
        simp [loadFromLocalStorage, loadFromCharacterStorage,
          loadFromData, hd, hp]
  · intro g env d sd hp hb
    by_cases hd : d = ""
    · subst hd; exact ⟨rfl, rfl⟩
    · constructor <;>
        simp [loadFromLocalStorage, loadFromCharacterStorage,
          loadFromData, hd, hp, hb]
  · intro g env d sd bytes hp hb hdec
    by_cases hd : d = ""
    · subst hd; exact ⟨rfl, rfl⟩
    · constructor <;>
        simp [loadFromLocalStorage, loadFromCharacterStorage,
          loadFromData, hd, hp, hb, hdec]
  · intro g env cur charData localData
    exact ⟨rfl, rfl, rfl⟩

/-- Envelope used by the failing-pipeline witnesses. -/
def sd0 : StorageData := { data := "AAAA", uncompressedSize := 2
                           version := 1 }

/-- Environment whose JSON parse always throws. -/
def envBadJson : DecodeEnv :=
  { parseJson := fun _ => none, fromBase64 := fun _ => none
    decompress := fun _ => none }

/-- Environment whose base64 decode always throws. -/
def envBadB64 : DecodeEnv :=
  { parseJson := fun _ => some sd0, fromBase64 := fun _ => none
    decompress := fun _ => none }

/-- Environment whose decompression always throws. -/
def envBadZip : DecodeEnv :=
  { parseJson := fun _ => some sd0, fromBase64 := fun _ => some [1, 2]
    decompress := fun _ => none }

/-- Witness for C8 across the failing pipelines at a concrete payload. -/
theorem c8_load_failure_recovery_witness :
    loadFromLocalStorage g0 envBadJson (some "garbage") = [] ∧
    loadFromCharacterStorage g0 envBadB64 (some "x") = [] ∧
    loadFromLocalStorage g0 envBadZip (some "x") = [] :=
  ⟨(c8_load_failure_recovery.2.1 g0 envBadJson "garbage" rfl).1,
   (c8_load_failure_recovery.2.2.1 g0 envBadB64 "x" sd0 rfl rfl).2,
   (c8_load_failure_recovery.2.2.2.1 g0 envBadZip "x" sd0 [1, 2] rfl rfl
     rfl).1⟩

/-- For any non-`"dl:"`, nonempty reference, `reconstructMedia` reduces to
the `try`/`catch`-wrapped `mediaLookup` on the decomposed kind and id. -/
lemma reconstructMedia_dispatch (g : Game) {ref ty : String}
    {rest : List String} (h1 : ref ≠ "")
    (h2 : jsStartsWith ref "dl:" = false)
    (hsplit : jsSplitOn ref ":" = ty :: rest) :
    reconstructMedia g ref =
      match mediaLookup g ty (String.intercalate ":" rest) with
      | Except.ok s => s
      | Except.error _ => "" := by
  unfold reconstructMedia
  rw [if_neg h1, if_neg (by simp [h2])]
  simp [hsplit]

/-- C9: `reconstructMedia` is a total function into strings (the model of
"never throws" — every thrown registry error is caught), and it returns
the empty string on an empty reference, on an unknown reference kind, on
an unresolvable lookup (registry miss), and on an exception raised by the
registry lookup, for each dispatch kind. -/
theorem c9_media_decode_totality :
    (∀ g : Game, reconstructMedia g "" = "") ∧
    (∀ (g : Game) (ref ty : String) (rest : List String),
      ref ≠ "" → jsStartsWith ref "dl:" = false →
      jsSplitOn ref ":" = ty :: rest →
      ty ∉ (["item", "skill", "currency", "mastery", "mark",
             "static"] : List String) →
      reconstructMedia g ref = "") ∧
    (∀ (g : Game) (ref : String) (rest : List String),
      ref ≠ "" → jsStartsWith ref "dl:" = false →
      jsSplitOn ref ":" = "item" :: rest →
      (g.items (String.intercalate ":" rest) = Except.error () ∨
       g.items (String.intercalate ":" rest) = Except.ok none) →
      reconstructMedia g ref = "") ∧
    (∀ (g : Game) (ref : String) (rest : List String),
      ref ≠ "" → jsStartsWith ref "dl:" = false →
      jsSplitOn ref ":" = "skill" :: rest →
      (g.skills (String.intercalate ":" rest) = Except.error () ∨
       g.skills (String.intercalate ":" rest) = Except.ok none) →
      reconstructMedia g ref = "") ∧
    (∀ (g : Game) (ref : String) (rest : List String),
      ref ≠ "" → jsStartsWith ref "dl:" = false →
      jsSplitOn ref ":" = "currency" :: rest →
      (g.currencies (String.intercalate ":" rest) = Except.error () ∨
       g.currencies (String.intercalate ":" rest) = Except.ok none) →
      reconstructMedia g ref = "") ∧
    (∀ (g : Game) (ref : String) (rest : List String),
      ref ≠ "" → jsStartsWith ref "dl:" = false →
      jsSplitOn ref ":" = "mastery" :: rest →
      (masteryLoop (String.intercalate ":" rest) g.skillAllObjects =
         Except.error () ∨
       masteryLoop (String.intercalate ":" rest) g.skillAllObjects =
         Except.ok "") →
      reconstructMedia g ref = "") ∧
    (∀ (g : Game) (ref : String) (rest : List String),
      ref ≠ "" → jsStartsWith ref "dl:" = false →
      jsSplitOn ref ":" = "mark" :: rest →
      (g.summoningMarks = none ∨
       (∃ f, g.summoningMarks = some f ∧
         (f (String.intercalate ":" rest) = Except.error () ∨
          f (String.intercalate ":" rest) = Except.ok none))) →
      reconstructMedia g ref = "") := by
  refine ⟨fun g => rfl, ?_, ?_, ?_, ?_, ?_, ?_⟩
  · intro g ref ty rest h1 h2 hsplit hty
    rw [reconstructMedia_dispatch g h1 h2 hsplit]
    have e1 : ty ≠ "item" := fun h => hty (by simp [h])
    have e2 : ty ≠ "skill" := fun h => hty (by simp [h])
    have e3 : ty ≠ "currency" := fun h => hty (by simp [h])
    have e4 : ty ≠ "mastery" := fun h => hty (by simp [h])
    have e5 : ty ≠ "mark" := fun h => hty (by simp [h])
    have e6 : ty ≠ "static" := fun h => hty (by simp [h])
    simp [mediaLookup, e1, e2, e3, e4, e5, e6]
  · intro g ref rest h1 h2 hsplit hlook
    rw [reconstructMedia_dispatch g h1 h2 hsplit]
    rcases hlook with hlook | hlook <;> simp [mediaLookup, hlook]
  · intro g ref rest h1 h2 hsplit hlook
    rw [reconstructMedia_dispatch g h1 h2 hsplit]
    rcases hlook with hlook | hlook <;> simp [mediaLookup, hlook]
  · intro g ref rest h1 h2 hsplit hlook
    rw [reconstructMedia_dispatch g h1 h2 hsplit]
    rcases hlook with hlook | hlook <;> simp [mediaLookup, hlook]
  · intro g ref rest h1 h2 hsplit hlook
    rw [reconstructMedia_dispatch g h1 h2 hsplit]
    rcases hlook with hlook | hlook <;> simp [mediaLookup, hlook]
  · intro g ref rest h1 h2 hsplit hlook
    rw [reconstructMedia_dispatch g h1 h2 hsplit]
    rcases hlook with hlook | ⟨f, hf, hlook⟩
    · simp [mediaLookup, hlook]
    · rcases hlook with hlook | hlook <;> simp [mediaLookup, hf, hlook]

/-- Registry in which every lookup throws. -/
def gErr : Game :=
  { items := fun _ => Except.error ()
    skills := fun _ => Except.error ()
    skillAllObjects := [{ actions := some fun _ => Except.error () }]
    currencies := fun _ => Except.error ()
    summoningMarks := some fun _ => Except.error () }

/-- Witness for C9 at concrete references: unknown kind, throwing and
missing lookups of each kind — note `"skill:a:b"` also exercises the
rejoining of an id containing `:`. -/
theorem c9_media_decode_totality_witness :
    reconstructMedia g0 "" = "" ∧
    reconstructMedia g0 "zzz:1" = "" ∧
    reconstructMedia gErr "item:x" = "" ∧
    reconstructMedia g0 "item:x" = "" ∧
    reconstructMedia gErr "skill:a:b" = "" ∧
    reconstructMedia gErr "currency:x" = "" ∧
    reconstructMedia gErr "mastery:x" = "" ∧
    reconstructMedia g0 "mark:x" = "" ∧
    reconstructMedia gErr "mark:x" = "" :=
  ⟨c9_media_decode_totality.1 g0,
   c9_media_decode_totality.2.1 g0 "zzz:1" "zzz" ["1"] (by decide)
     (by decide) (by decide) (by decide),
   c9_media_decode_totality.2.2.1 gErr "item:x" ["x"] (by decide)
     (by decide) (by decide) (Or.inl rfl),
   c9_media_decode_totality.2.2.1 g0 "item:x" ["x"] (by decide)
     (by decide) (by decide) (Or.inr rfl),
   c9_media_decode_totality.2.2.2.1 gErr "skill:a:b" ["a", "b"]
     (by decide) (by decide) (by decide) (Or.inl rfl),
   c9_media_decode_totality.2.2.2.2.1 gErr "currency:x" ["x"] (by decide)
     (by decide) (by decide) (Or.inl rfl),
   c9_media_decode_totality.2.2.2.2.2.1 gErr "mastery:x" ["x"]
     (by decide) (by decide) (by decide) (Or.inl rfl),
   c9_media_decode_totality.2.2.2.2.2.2 g0 "mark:x" ["x"] (by decide)
     (by decide) (by decide) (Or.inl rfl),
   c9_media_decode_totality.2.2.2.2.2.2 gErr "mark:x" ["x"] (by decide)
     (by decide) (by decide)
     (Or.inr ⟨fun _ => Except.error (), rfl, Or.inl rfl⟩)⟩

/-- On exit, the eviction loop has either exhausted the sequence or its
last re-measurement was within budget. -/
lemma pruneLoop_post (csize : List Notification → Nat) (maxBytes : Nat) :
    ∀ (k : Nat) (m : List Notification) (pc : Nat), m.length ≤ k →
      pruneLoop csize maxBytes m pc = [] ∨
      csize (pruneLoop csize maxBytes m pc) ≤ maxBytes := by
  intro k
  induction k with
  | zero =>
    intro m pc h
    have hm : m = [] := by
      cases m with
      | nil => rfl
      | cons a rest => simp at h
    subst hm
    left
    rw [pruneLoop]
  | succ k ih =>
    intro m pc h
    cases m with
    | nil => left; rw [pruneLoop]
    | cons x rest =>
      rw [pruneLoop]
      split_ifs with hmeas hfit
      · right; exact hfit
      · exact ih (x :: rest).dropLast (pc + 1)
          (by
          simp only [List.length_dropLast, List.length_cons]
          simp only [List.length_cons] at h
          omega)
      · exact ih (x :: rest).dropLast (pc + 1)
          (by
          simp only [List.length_dropLast, List.length_cons]
          simp only [List.length_cons] at h
          omega)

/-- The eviction loop never lengthens the sequence. -/
lemma pruneLoop_length (csize : List Notification → Nat)
    (maxBytes : Nat) :
    ∀ (k : Nat) (m : List Notification) (pc : Nat), m.length ≤ k →
      (pruneLoop csize maxBytes m pc).length ≤ m.length := by
  intro k
  induction k with
  | zero =>
    intro m pc h
    have hm : m = [] := by
      cases m with
      | nil => rfl
      | cons a rest => simp at h
    subst hm
    rw [pruneLoop]
  | succ k ih =>
    intro m pc h
    cases m with
    | nil => rw [pruneLoop]
    | cons x rest =>
      rw [pruneLoop]
      have hd : (x :: rest).dropLast.length ≤ k := by
        simp only [List.length_dropLast, List.length_cons]
        simp only [List.length_cons] at h
        omega
      have hlen : (x :: rest).dropLast.length ≤ (x :: rest).length := by
        simp [List.length_dropLast]
      split_ifs with hmeas hfit
      · exact hlen
      · exact le_trans (ih _ _ hd) hlen
      · exact le_trans (ih _ _ hd) hlen

/-- Every intermediate state of the eviction loop that was re-measured
(removal count a multiple of 5) and not returned from was over budget. -/
lemma pruneLoop_measured_fail (csize : List Notification → Nat)
    (maxBytes : Nat) :
    ∀ (k : Nat) (m : List Notification) (pc : Nat), m.length ≤ k →
      ∀ j : Nat, 0 < j →
        j < m.length - (pruneLoop csize maxBytes m pc).length →
        (pc + j) % 5 = 0 →
        maxBytes < csize (m.take (m.length - j)) := by
  intro k
  induction k with
  | zero =>
    intro m pc h j hj hjt hmod
    have hm : m = [] := by
      cases m with
      | nil => rfl
      | cons a rest => simp at h
    subst hm
    simp at hjt
  | succ k ih =>
    intro m pc h j hj hjt hmod
    cases m with
    | nil => simp [pruneLoop] at hjt
    | cons x rest =>
      have hd : (x :: rest).dropLast.length ≤ k := by
        simp only [List.length_dropLast, List.length_cons]
        simp only [List.length_cons] at h
        omega
      have hdlen : (x :: rest).dropLast.length = rest.length := by
        simp [List.length_dropLast]
      have htake : ∀ i : Nat, 1 ≤ i →
          (x :: rest).dropLast.take ((x :: rest).length - i) =
            (x :: rest).take ((x :: rest).length - i) := by
        intro i hi
        rw [List.dropLast_eq_take, List.take_take]
        congr 1
        simp only [List.length_cons]
        omega
      rw [pruneLoop] at hjt
      split_ifs at hjt with hmeas hfit
      · -- returned m' at once: only one removal, so no strict j exists
        rw [hdlen] at hjt
        simp only [List.length_cons] at hjt
        omega
      · -- measured and over budget: recurse
        rcases Nat.lt_or_ge j 2 with hj2 | hj2
        · -- j = 1 is exactly the failing measured state
          have hj1 : j = 1 := by omega
          subst hj1
          have := htake 1 (by omega)
          rw [← this]
          have hlast : (x :: rest).dropLast.take ((x :: rest).length - 1) =
              (x :: rest).dropLast := by
            rw [List.take_of_length_le]
            rw [hdlen]
            simp
          rw [hlast]
          omega
        · have hrec := ih (x :: rest).dropLast (pc + 1) hd (j - 1)
            (by omega)
            (by
              rw [hdlen]
              simp only [List.length_cons] at hjt
              omega)
            (by
              have : pc + 1 + (j - 1) = pc + j := by omega
              rw [this]
              exact hmod)
          rw [hdlen] at hrec
          rw [← htake j (by omega)]
          have harg : rest.length - (j - 1) = (x :: rest).length - j := by
            simp only [List.length_cons]
            omega
          rw [harg] at hrec
          exact hrec
      · -- not measured: the j = 1 state was not a measurement point
        rcases Nat.lt_or_ge j 2 with hj2 | hj2
        · have hj1 : j = 1 := by omega
          subst hj1
          exfalso
          apply hmeas
          left
          omega
        · have hrec := ih (x :: rest).dropLast (pc + 1) hd (j - 1)
            (by omega)
            (by
              rw [hdlen]
              simp only [List.length_cons] at hjt
              omega)
            (by
              have : pc + 1 + (j - 1) = pc + j := by omega
              rw [this]
              exact hmod)
          rw [hdlen] at hrec
          rw [← htake j (by omega)]
          have harg : rest.length - (j - 1) = (x :: rest).length - j := by
            simp only [List.length_cons]
            omega
          rw [harg] at hrec
          exact hrec

/-- A size measure that never grows when the last record is removed is
monotone over the prefixes of a fixed sequence. -/
lemma csize_take_mono (csize : List Notification → Nat)
    (hmono : ∀ m : List Notification, csize m.dropLast ≤ csize m)
    (l : List Notification) :
    ∀ a b : Nat, a ≤ b → b ≤ l.length →
      csize (l.take a) ≤ csize (l.take b) := by
  have hstep : ∀ b : Nat, 0 < b → b ≤ l.length →
      csize (l.take (b - 1)) ≤ csize (l.take b) := by
    intro b hb hbl
    have hdl : (l.take b).dropLast = l.take (b - 1) := by
      rw [List.dropLast_eq_take, List.take_take]
      congr 1
      simp only [List.length_take]
      omega
    rw [← hdl]
    exact hmono (l.take b)
  intro a b hab hbl
  induction b with
  | zero =>
    have ha : a = 0 := by omega
    subst ha
    exact le_refl _
  | succ n ihn =>
    by_cases han : a = n + 1
    · subst han; exact le_refl _
    · have h1 : csize (l.take a) ≤ csize (l.take n) :=
        ihn (by omega) (by omega)
      have h2 : csize (l.take n) ≤ csize (l.take (n + 1)) := by
        have := hstep (n + 1) (by omega) hbl
        simpa using this
      exact le_trans h1 h2

/-- After `pruneToPercentage`, either the sequence is empty or its
measured compressed size is within the byte budget. -/
lemma pruneToPercentage_post (csize : List Notification → Nat)
    (pct : Nat) (l : List Notification) :
    pruneToPercentage csize pct l = [] ∨
    csize (pruneToPercentage csize pct l) ≤
      MAX_CHARACTER_SAVE_BYTES * pct / 100 := by
  unfold pruneToPercentage
  dsimp only
  split_ifs with h
  · right; exact h
  · exact pruneLoop_post csize _ l.length l 0 (le_refl _)

/-- Over-eviction bound: for a monotone size measure, every intermediate
state more than 4 removals before the final one was still over budget —
the loop removes at most 4 records beyond the minimum needed. -/
lemma pruneToPercentage_overshoot (csize : List Notification → Nat)
    (pct : Nat) (l : List Notification)
    (hmono : ∀ m : List Notification, csize m.dropLast ≤ csize m) :
    ∀ j : Nat,
      j + 5 ≤ l.length - (pruneToPercentage csize pct l).length →
      MAX_CHARACTER_SAVE_BYTES * pct / 100 <
        csize (l.take (l.length - j)) := by
  intro j hj
  unfold pruneToPercentage at hj
  dsimp only at hj
  split_ifs at hj with hfit
  · omega
  · set maxBytes := MAX_CHARACTER_SAVE_BYTES * pct / 100 with hmb
    set t := l.length - (pruneLoop csize maxBytes l 0).length with ht
    have hlen := pruneLoop_length csize maxBytes l.length l 0 (le_refl _)
    have htl : t ≤ l.length := by omega
    set q : Nat := ((t - 1) / 5) * 5 with hq
    by_cases hq0 : q = 0
    · -- the loop returned at its first measurement: j must be 0
      have ht5 : t ≤ 5 := by
        rcases Nat.lt_or_ge t 6 with h6 | h6
        · omega
        · exfalso
          have : (t - 1) / 5 ≥ 1 := by omega
          omega
      have hj0 : j = 0 := by omega
      subst hj0
      rw [Nat.sub_zero, List.take_length]
      omega
    · have hq5 : q % 5 = 0 := by omega
      have hqt : q < t := by
        have : (t - 1) / 5 * 5 ≤ t - 1 := Nat.div_mul_le_self _ _
        omega
      have hqpos : 0 < q := by omega
      have hfail := pruneLoop_measured_fail csize maxBytes l.length l 0
        (le_refl _) q hqpos (by omega) (by omega)
      have hjq : j ≤ q := by
        have : t - 1 - 4 ≤ (t - 1) / 5 * 5 := by omega
        omega
      have := csize_take_mono csize hmono l (l.length - q)
        (l.length - j) (by omega) (by omega)
      omega

/-- C5 amended: in percentage mode the byte budget is re-established only
by add calls that take the new-record path, and it is measured on the raw
in-memory sequence: after such a call the measured compressed size is
within `floor(8192 * percentage / 100)` or the sequence is empty; the
eviction loop ends only when a re-measurement is within budget or the
sequence is exhausted; and, for a size measure that never grows when the
oldest record is removed, the loop removes at most 4 records beyond the
minimum needed (every state more than 4 removals before the final one was
still over budget). Merging calls skip eviction entirely (see the
counterexample). -/
theorem c5_eviction_convergence_amended :
    (∀ (gs : GroupSettings) (csize : List Notification → Nat)
       (ss : StorageSettings) (l : List Notification) (now : Int)
       (n : Notification),
      ss.mode = "character-save" → ss.characterSaveType = "percentage" →
      (gs.groupSimilar = false ∨
        findGroupSplit now (gs.timeWindowSeconds * 1000) n l = none) →
      (addNotification gs csize ss l now n = [] ∨
       csize (addNotification gs csize ss l now n) ≤
         MAX_CHARACTER_SAVE_BYTES * ss.characterSavePercentage / 100)) ∧
    (∀ (csize : List Notification → Nat) (maxBytes : Nat)
       (m : List Notification) (pc : Nat),
      pruneLoop csize maxBytes m pc = [] ∨
      csize (pruneLoop csize maxBytes m pc) ≤ maxBytes) ∧
    (∀ (csize : List Notification → Nat) (pct : Nat)
       (l : List Notification),
      (∀ m : List Notification, csize m.dropLast ≤ csize m) →
      ∀ j : Nat,
        j + 5 ≤ l.length - (pruneToPercentage csize pct l).length →
        MAX_CHARACTER_SAVE_BYTES * pct / 100 <
          csize (l.take (l.length - j))) := by
  refine ⟨?_, ?_, ?_⟩
  · intro gs csize ss l now n hmode htype hnew
    have heq : addNotification gs csize ss l now n =
        pruneIfNeeded csize ss ({ n with count := some 1 } :: l) := by
      unfold addNotification
      rcases hnew with hnew | hnew
      · rw [hnew]; rfl
      · rcases hgs : gs.groupSimilar with _ | _
        · rfl
        · simp [hnew]
    rw [heq]
    unfold pruneIfNeeded
    rw [if_pos hmode, if_pos htype]
    exact pruneToPercentage_post csize _ _
  · intro csize maxBytes m pc
    exact pruneLoop_post csize maxBytes m.length m pc (le_refl _)
  · intro csize pct l hmono j hj
    exact pruneToPercentage_overshoot csize pct l hmono j hj

/-- Percentage-mode storage settings with a 1% budget (81 bytes). -/
def ssPct1 : StorageSettings :=
  { mode := "character-save", characterSaveType := "percentage"
    characterSavePercentage := 1, characterSaveLineCount := 100
    localStorageLineCount := 100 }

/-- First overshoot-run event: `quantity = 5`. -/
def exN1 : Notification :=
  { id := "a", timestamp := 0, type := "t", message := "m"
    count := none, quantity := some 5, media := none, mediaRef := none
    customID := none }

/-- Second overshoot-run event, 10 s later: `quantity = 9995`, merging
into the first. -/
def exN2 : Notification :=
  { id := "b", timestamp := 10000, type := "t", message := "x"
    count := none, quantity := some 9995, media := none, mediaRef := none
    customID := none }

/-- Record-length size measure used by the over-eviction witness run. -/
def lenOracle : List Notification → Nat := fun m => m.length

/-- Six-record sequence driving the eviction loop to exhaustion under a
zero budget. -/
def sixB : List Notification := List.replicate 6 bA

/-- Witness for the amended C5 theorem: a concrete percentage-mode add
lands within budget; a concrete loop run ends within budget or empty; and
in a run that removes 6 records under a zero budget, the state 5 removals
before the end was still over budget. -/
theorem c5_eviction_convergence_amended_witness :
    (addNotification gsDefault fallbackCompressedSize ssPct1 [] 0 exN1 =
       [] ∨
     fallbackCompressedSize
       (addNotification gsDefault fallbackCompressedSize ssPct1 [] 0
         exN1) ≤ MAX_CHARACTER_SAVE_BYTES * 1 / 100) ∧
    (pruneLoop lenOracle 0 sixB 0 = [] ∨
     lenOracle (pruneLoop lenOracle 0 sixB 0) ≤ 0) ∧
    0 < lenOracle (sixB.take (sixB.length - 1)) :=
  ⟨c5_eviction_convergence_amended.1 gsDefault fallbackCompressedSize
     ssPct1 [] 0 exN1 rfl rfl (Or.inr rfl),
   c5_eviction_convergence_amended.2.1 lenOracle 0 sixB 0,
   c5_eviction_convergence_amended.2.2 lenOracle 0 sixB
     (fun m => by simp [lenOracle, List.length_dropLast]) 1
     (by
       have : pruneToPercentage lenOracle 0 sixB = [] := by
         simp [pruneToPercentage, sixB, lenOracle]
         norm_num [pruneLoop, lenOracle, List.replicate]
       rw [this]
       simp [sixB])⟩

/-- C5 counterexample: with a 1% budget (81 bytes) under the documented
uncompressed fallback of `CompressionUtil.compress` (no
`CompressionStream`: the compressed bytes are the UTF-8 of
`JSON.stringify`), a first add lands within budget (74 bytes), but a
second add that merges returns before `pruneIfNeeded`, leaving the
persisted form of the sequence at 82 bytes — over the budget even though
no records were removed at all, refuting the claim that the bound holds
after any sequence of adds including merges. -/
theorem c5_merge_overshoot_counterexample :
    MAX_CHARACTER_SAVE_BYTES * ssPct1.characterSavePercentage / 100 =
      81 ∧
    fallbackCompressedSize
      (addNotification gsDefault fallbackCompressedSize ssPct1 [] 0
        exN1) = 74 ∧
    (addNotification gsDefault fallbackCompressedSize ssPct1
      (addNotification gsDefault fallbackCompressedSize ssPct1 [] 0 exN1)
      10000 exN2).length = 1 ∧
    81 < persistedCompressedSize
      (addNotification gsDefault fallbackCompressedSize ssPct1
        (addNotification gsDefault fallbackCompressedSize ssPct1 [] 0
          exN1) 10000 exN2) := by
  refine ⟨by decide, by decide, by decide, by decide⟩
